import Mathlib

/-!
# Talisman detector chain (`detector/chain.go`)

A shallow embedding of the detector chain of Talisman and the properties of
its orchestration: construction of chains (`NewChain`, `AddDetector`,
`DefaultChain`), one scan pass (`Chain.Test`) and the progress reporter
(`getProgressBar`, `noOpProgressBar`, `defaultProgressBar`).

`Chain.Test` is effectful Go code.  It is embedded as a function from the
process environment and the arguments to the final state: the detection
results, the state of the progress reporter, and the ordered log of the calls
the function makes to its collaborators.  A run that dereferences a nil pointer
panics: it ends there, keeping the calls made so far and the results as they
were left, and is marked as panicked.
-/

namespace Talisman

/-! ## Collaborators declared outside `chain.go` -/

/-- Modelled from the spec: `gitrepo.Addition`, a file identified by its path
and carrying its content bytes. -/
structure Addition where
  Path : String
  Data : List Nat
  deriving DecidableEq

/-- Modelled from the spec: `severity.Severity`, the threshold consumed by the
file name detector. -/
abbrev Severity := Nat

/-- Modelled from the spec: `talismanrc.TalismanRC`, the configuration: the
threshold, the ordered custom pattern rules and the approved checksums
(path, digest). -/
structure TalismanRC where
  Threshold : Severity
  CustomPatterns : List String
  FileIgnoreConfig : List (String × String)
  deriving DecidableEq

/-- Modelled from the spec: `utility.SHA256Hasher`, with its two strategies.
Each value records the constructor that built it and the root it was given:
`gitHeadFile` is the result of `utility.NewGitHeadFileSHA256Hasher` (content as
committed at HEAD), `gitFile` the result of `utility.NewGitFileSHA256Hasher`
(content of the working tree). -/
inductive SHA256Hasher where
  | gitHeadFile (root : String)
  | gitFile (root : String)
  deriving DecidableEq

/-- The constructor `utility.NewGitHeadFileSHA256Hasher`. -/
def NewGitHeadFileSHA256Hasher (root : String) : SHA256Hasher :=
  SHA256Hasher.gitHeadFile root

/-- The constructor `utility.NewGitFileSHA256Hasher`. -/
def NewGitFileSHA256Hasher (root : String) : SHA256Hasher :=
  SHA256Hasher.gitFile root

/-- Modelled from the spec: `checksumcalculator.ChecksumCalculator`, recorded
as the hasher and the sequence of additions its digest map is built over. -/
structure ChecksumCalculator where
  hasher : SHA256Hasher
  additions : List Addition
  deriving DecidableEq

/-- The constructor `checksumcalculator.NewChecksumCalculator`. -/
def NewChecksumCalculator (hasher : SHA256Hasher) (additions : List Addition) :
    ChecksumCalculator :=
  { hasher := hasher, additions := additions }

/-- Modelled from the spec: `helpers.ChecksumCompare`, the comparator bound to
a calculator, a hasher and the configuration. -/
structure ChecksumCompare where
  calculator : ChecksumCalculator
  hasher : SHA256Hasher
  talismanRC : TalismanRC
  deriving DecidableEq

/-- The constructor `helpers.NewChecksumCompare`. -/
def NewChecksumCompare (calculator : ChecksumCalculator) (hasher : SHA256Hasher)
    (talismanRC : TalismanRC) : ChecksumCompare :=
  { calculator := calculator, hasher := hasher, talismanRC := talismanRC }

/-- Modelled from the spec: a finding, a record of the path, the identity of
the detector and the message. -/
structure Finding where
  path : String
  detector : String
  message : String
  deriving DecidableEq

/-- Modelled from the spec: `helpers.DetectionResults`, the accumulator of
findings shared by all detectors of one pass. -/
abbrev DetectionResults := List Finding

/-- Modelled from the spec: the interface `detector.Detector`.  Its one method
`Test(comparator, currentAdditions, ignoreConfig, result, additionCompletionCallback)`
updates the results it is handed and calls the callback, which takes no
argument and returns nothing: the method is the function from its arguments to
the updated results and the number of times it calls the callback.  The
comparator, the additions and the configuration are read-only to a detector. -/
structure Detector where
  Test : ChecksumCompare → List Addition → TalismanRC → DetectionResults →
    DetectionResults × Nat

/-- The constructors of the three built-in detectors
(`filename.DefaultFileNameDetector`, `filecontent.NewFileContentDetector`,
`pattern.NewPatternDetector`), whose scanning rules are outside `chain.go`. -/
structure Builtin where
  DefaultFileNameDetector : Severity → Detector
  NewFileContentDetector : TalismanRC → Detector
  NewPatternDetector : List String → Detector

/-- The size of the Go type `int` on the target: 32 or 64 bits. -/
inductive IntSize where
  | bits32
  | bits64
  deriving DecidableEq

/-- The number of bits of `int`. -/
def IntSize.bits : IntSize → Nat
  | IntSize.bits32 => 32
  | IntSize.bits64 => 64

/-- The value of an integer in the Go type `int`: arithmetic on `int` wraps around
in two's complement. -/
def wrapInt (size : IntSize) (x : Int) : Int :=
  (x + ((2 ^ (size.bits - 1) : Nat) : Int)) % ((2 ^ size.bits : Nat) : Int) -
    ((2 ^ (size.bits - 1) : Nat) : Int)

/-- The process environment `Chain.Test` reads: the working directory
(`os.Getwd`, its error discarded), the tracked files of the repository located
there (`gitrepo.RepoLocatedAt(wd).TrackedFilesAsAdditions()`), the outcome of
`os.Stdout.Stat()` (the file mode of standard output, or `none` when the call
fails and the `FileInfo` it returns is nil), and the size of `int`. -/
structure Env where
  wd : String
  TrackedFilesAsAdditions : String → List Addition
  stdoutStat : Option Nat
  intSize : IntSize

/-- The bit `os.ModeCharDevice` of a file mode, `1 << 21`. -/
def ModeCharDevice : Nat := 2 ^ 21

/-! ## The third-party progress bar `pb.ProgressBar` -/

/-- The bar of `github.com/cheggaaa/pb/v3`, as the counters it holds. -/
structure pb.ProgressBar where
  total : Int
  current : Int
  terminal : Bool
  started : Bool
  finished : Bool
  deriving DecidableEq

/-- The bar `ProgressBarTemplate(...).New(total)`; the template is cosmetic. -/
def pb.New (total : Int) : pb.ProgressBar :=
  { total := total, current := 0, terminal := false, started := false, finished := false }

/-- The call `bar.Set(pb.Terminal, v)`. -/
def pb.ProgressBar.SetTerminal (bar : pb.ProgressBar) (v : Bool) : pb.ProgressBar :=
  { bar with terminal := v }

/-- The call `bar.Start()`. -/
def pb.ProgressBar.Start (bar : pb.ProgressBar) : pb.ProgressBar :=
  { bar with started := true }

/-- The call `bar.Increment()`. -/
def pb.ProgressBar.Increment (bar : pb.ProgressBar) : pb.ProgressBar :=
  { bar with current := bar.current + 1 }

/-- The call `bar.Finish()`. -/
def pb.ProgressBar.Finish (bar : pb.ProgressBar) : pb.ProgressBar :=
  { bar with finished := true }

/-! ## The progress reporter of `chain.go` -/

/-- The type `noOpProgressBar struct {}`. -/
structure noOpProgressBar where
  deriving DecidableEq

/-- The method `func (d *noOpProgressBar) Start(int) {}`. -/
def noOpProgressBar.Start (d : noOpProgressBar) (_total : Int) : noOpProgressBar := d

/-- The method `func (d *noOpProgressBar) Increment() {}`. -/
def noOpProgressBar.Increment (d : noOpProgressBar) : noOpProgressBar := d

/-- The method `func (d *noOpProgressBar) Finish() {}`. -/
def noOpProgressBar.Finish (d : noOpProgressBar) : noOpProgressBar := d

/-- The type `defaultProgressBar struct { bar *pb.ProgressBar }`; `none` is the nil
pointer. -/
structure defaultProgressBar where
  bar : Option pb.ProgressBar
  deriving DecidableEq

/-- The method `defaultProgressBar.Start`: a new bar for `total`, set to
terminal mode, started and stored in `d.bar`. -/
def defaultProgressBar.Start (_d : defaultProgressBar) (total : Int) : defaultProgressBar :=
  let bar := pb.New total
  let bar := bar.SetTerminal true
  { bar := some bar.Start }

/-- The method `defaultProgressBar.Increment`: `d.bar.Increment()`, a nil
dereference when `d.bar` is nil. -/
def defaultProgressBar.Increment (d : defaultProgressBar) : Option defaultProgressBar :=
  match d.bar with
  | none => none
  | some bar => some { bar := some bar.Increment }

/-- The method `defaultProgressBar.Finish`: `d.bar.Finish()`, a nil dereference
when `d.bar` is nil. -/
def defaultProgressBar.Finish (d : defaultProgressBar) : Option defaultProgressBar :=
  match d.bar with
  | none => none
  | some bar => some { bar := some bar.Finish }

/-- The interface `progressBar` with its two implementations. -/
inductive progressBar where
  | default (d : defaultProgressBar)
  | noOp (d : noOpProgressBar)
  deriving DecidableEq

/-- Dynamic dispatch of `Start(int)`. -/
def progressBar.Start : progressBar → Int → progressBar
  | progressBar.default d, total => progressBar.default (d.Start total)
  | progressBar.noOp d, total => progressBar.noOp (d.Start total)

/-- Dynamic dispatch of `Increment()`. -/
def progressBar.Increment : progressBar → Option progressBar
  | progressBar.default d => d.Increment.map progressBar.default
  | progressBar.noOp d => some (progressBar.noOp d.Increment)

/-- Dynamic dispatch of `Finish()`. -/
def progressBar.Finish : progressBar → Option progressBar
  | progressBar.default d => d.Finish.map progressBar.default
  | progressBar.noOp d => some (progressBar.noOp d.Finish)

/-- The function `isTerminal`: `fileInfo, _ := os.Stdout.Stat()` discards the
error, and `fileInfo.Mode()` dereferences the `FileInfo`: a nil dereference
(`none`) when `Stat` failed, else whether the mode has the character device
bit. -/
def isTerminal (env : Env) : Option Bool :=
  match env.stdoutStat with
  | none => none
  | some mode => some ((mode &&& ModeCharDevice) != 0)

/-- The function `getProgressBar`; `none` when `isTerminal` panics. -/
def getProgressBar (env : Env) : Option progressBar :=
  match isTerminal env with
  | none => none
  | some true => some (progressBar.default { bar := none })
  | some false => some (progressBar.noOp {})

/-! ## The chain -/

/-- The type `Chain struct { detectors []detector.Detector; hooktype string }`. -/
structure Chain where
  detectors : List Detector
  hooktype : String

/-- The function `NewChain`. -/
def NewChain (hooktype : String) : Chain :=
  { detectors := [], hooktype := hooktype }

/-- The method `AddDetector`, which updates its receiver and returns it: the
first component is the receiver after the call, the second the chain the
returned pointer refers to. -/
def Chain.AddDetector (dc : Chain) (d : Detector) : Chain × Chain :=
  let dc := { dc with detectors := dc.detectors ++ [d] }
  (dc, dc)

/-- The function `DefaultChain`; the three values returned by `AddDetector` are
discarded and the updated receiver is returned. -/
def DefaultChain (lib : Builtin) (tRC : TalismanRC) (hooktype : String) : Chain :=
  let result := NewChain hooktype
  let result := (result.AddDetector (lib.DefaultFileNameDetector tRC.Threshold)).1
  let result := (result.AddDetector (lib.NewFileContentDetector tRC)).1
  let result := (result.AddDetector (lib.NewPatternDetector tRC.CustomPatterns)).1
  result

/-- One call made by `Chain.Test` to a collaborator, with its arguments. -/
inductive Call where
  | Getwd
  | RepoLocatedAt (wd : String)
  | TrackedFilesAsAdditions
  | NewGitHeadFileSHA256Hasher (root : String)
  | NewGitFileSHA256Hasher (root : String)
  | NewChecksumCalculator (hasher : SHA256Hasher) (additions : List Addition)
  | NewChecksumCompare (calculator : ChecksumCalculator) (hasher : SHA256Hasher)
      (talismanRC : TalismanRC)
  | Printf (format : String) (arg : Int)
  | StdoutStat
  | Start (total : Int)
  | Test (v : Detector) (cc : ChecksumCompare) (additions : List Addition)
      (talismanRC : TalismanRC) (result : DetectionResults)
  | Increment
  | Finish

/-- The state at the end of the detector loop: the detection results, the
progress reporter, the calls made, in order, and whether the loop ended in a
panic. -/
structure Loop where
  result : DetectionResults
  progressBar : progressBar
  calls : List Call
  panicked : Bool

/-- The state at the end of a run of `Chain.Test`: the detection results, the
progress reporter (when `getProgressBar` returned one), the calls made, in
order, and whether the run ended in a panic instead of returning. -/
structure Run where
  result : DetectionResults
  progressBar : Option progressBar
  calls : List Call
  panicked : Bool

/-- The callback `func() { progressBar.Increment() }` called `n` times: the
reporter, the calls made and whether one of them panicked. -/
def onItemScanned : Nat → progressBar → progressBar × List Call × Bool
  | 0, bar => (bar, [], false)
  | n + 1, bar =>
    match bar.Increment with
    | none => (bar, [Call.Increment], true)
    | some bar =>
      let rest := onItemScanned n bar
      (rest.1, Call.Increment :: rest.2.1, rest.2.2)

/-- The loop `for _, v := range dc.detectors { v.Test(cc, currentAdditions,
talismanRC, result, func() { progressBar.Increment() }) }`.  A panic of the
callback ends the loop inside the detector that called it; the results are then
taken as that detector leaves them. -/
def rangeDetectors (cc : ChecksumCompare) (currentAdditions : List Addition)
    (talismanRC : TalismanRC) :
    List Detector → DetectionResults → progressBar → Loop
  | [], result, bar => { result := result, progressBar := bar, calls := [], panicked := false }
  | v :: vs, result, bar =>
    let scanned := v.Test cc currentAdditions talismanRC result
    let scannedCalls := onItemScanned scanned.2 bar
    if scannedCalls.2.2 then
      { result := scanned.1, progressBar := scannedCalls.1,
        calls := Call.Test v cc currentAdditions talismanRC result :: scannedCalls.2.1,
        panicked := true }
    else
      let rest := rangeDetectors cc currentAdditions talismanRC vs scanned.1 scannedCalls.1
      { rest with
        calls := Call.Test v cc currentAdditions talismanRC result ::
          (scannedCalls.2.1 ++ rest.calls) }

/-- The method `Chain.Test`.  The total `len(currentAdditions) * len(dc.detectors)`
is a product in the Go type `int`. -/
def Chain.Test (dc : Chain) (env : Env) (currentAdditions : List Addition)
    (talismanRC : TalismanRC) (result : DetectionResults) : Run :=
  let wd := env.wd
  let allAdditions := env.TrackedFilesAsAdditions wd
  let (hasher, hasherCall) :=
    if dc.hooktype = "pre-push" then
      (NewGitHeadFileSHA256Hasher wd, Call.NewGitHeadFileSHA256Hasher wd)
    else
      (NewGitFileSHA256Hasher wd, Call.NewGitFileSHA256Hasher wd)
  let calculator := NewChecksumCalculator hasher (allAdditions ++ currentAdditions)
  let cc := NewChecksumCompare calculator hasher talismanRC
  let total : Int :=
    wrapInt env.intSize ((currentAdditions.length : Int) * (dc.detectors.length : Int))
  let calls :=
    [Call.Getwd, Call.RepoLocatedAt wd, Call.TrackedFilesAsAdditions, hasherCall,
      Call.NewChecksumCalculator hasher (allAdditions ++ currentAdditions),
      Call.NewChecksumCompare calculator hasher talismanRC,
      Call.Printf "Number of files to scan: %d\n" (currentAdditions.length : Int),
      Call.Printf "Number of detectors: %d\n" (dc.detectors.length : Int),
      Call.StdoutStat]
  match getProgressBar env with
  | none => { result := result, progressBar := none, calls := calls, panicked := true }
  | some progressBar =>
    let progressBar := progressBar.Start total
    let calls := calls ++ [Call.Start total]
    let loop := rangeDetectors cc currentAdditions talismanRC dc.detectors result progressBar
    let calls := calls ++ loop.calls
    if loop.panicked then
      { result := loop.result, progressBar := some loop.progressBar, calls := calls,
        panicked := true }
    else
      match loop.progressBar.Finish with
      | none =>
        { result := loop.result, progressBar := some loop.progressBar,
          calls := calls ++ [Call.Finish], panicked := true }
      | some progressBar =>
        { result := loop.result, progressBar := some progressBar,
          calls := calls ++ [Call.Finish], panicked := false }

/-! ## Sample inputs -/

/-- A 64-bit process in a repository at `/repo` with one tracked file; standard
output is a regular file (mode `0644`). -/
def sampleEnv : Env :=
  { wd := "/repo"
    TrackedFilesAsAdditions := fun _ => [{ Path := "README.md", Data := [35, 32, 104, 105] }]
    stdoutStat := some 420
    intSize := IntSize.bits64 }

/-- The same process with standard output closed: `os.Stdout.Stat()` fails. -/
def closedStdoutEnv : Env :=
  { sampleEnv with stdoutStat := none }

/-- The same repository in a 32-bit process. -/
def sampleEnv32 : Env :=
  { sampleEnv with intSize := IntSize.bits32 }

/-- The mode of a terminal: a character device with permissions `0620`. -/
def terminalMode : Nat := 2 ^ 26 + 2 ^ 21 + 400

/-- A configuration without approved checksums. -/
def sampleRC : TalismanRC :=
  { Threshold := 1, CustomPatterns := [], FileIgnoreConfig := [] }

/-- The three additions `a.txt`, `b.env` and `c.pem`. -/
def sampleAdditions : List Addition :=
  [{ Path := "a.txt", Data := [104, 105] },
   { Path := "b.env", Data := [75, 61, 49] },
   { Path := "c.pem", Data := [45, 45, 45] }]

/-- The path ends in `.env` or `.pem`. -/
def riskyName (a : Addition) : Bool :=
  ".env".toList.isSuffixOf a.Path.toList || ".pem".toList.isSuffixOf a.Path.toList

/-- A file name detector: one finding per addition with a risky name, one
callback per addition. -/
def sampleFileNameDetector : Detector :=
  { Test := fun _ additions _ result =>
      (result ++ (additions.filter riskyName).map
          (fun a => { path := a.Path, detector := "filename", message := "risky file name" }),
        additions.length) }

/-- A content detector: one finding per addition whose content has the byte
`-`, one callback per addition. -/
def sampleFileContentDetector : Detector :=
  { Test := fun _ additions _ result =>
      (result ++ (additions.filter (fun a => a.Data.contains 45)).map
          (fun a => { path := a.Path, detector := "filecontent", message := "secret marker" }),
        additions.length) }

/-- A detector that reads the results it is handed: it reports the additions
with no content, and a summary finding only when no finding was recorded before
it ran. -/
def sampleSummaryDetector : Detector :=
  { Test := fun _ additions _ result =>
      (result ++ (additions.filter (fun a => a.Data.isEmpty)).map
          (fun a => { path := a.Path, detector := "summary", message := "empty file" }) ++
        (if result.isEmpty then
          [{ path := "", detector := "summary", message := "first finding of the pass" }]
         else []),
        additions.length) }

/-- The chain of the file name and the content detector, for a commit hook. -/
def sampleChain : Chain :=
  { detectors := [sampleFileNameDetector, sampleFileContentDetector], hooktype := "pre-commit" }

/-- A change set of 65536 additions. -/
def manyAdditions : List Addition :=
  List.replicate 65536 { Path := "a.txt", Data := [104, 105] }

/-- A chain to which the file name detector was added 32768 times. -/
def longChain : Chain :=
  { detectors := List.replicate 32768 sampleFileNameDetector, hooktype := "pre-commit" }

/-! ## Observations on a run -/

/-- One invocation of a detector: the detector and the arguments it received. -/
structure Invocation where
  v : Detector
  cc : ChecksumCompare
  additions : List Addition
  talismanRC : TalismanRC
  result : DetectionResults

/-- The invocation a call stands for, when it is a call of a detector. -/
def Call.invocation? : Call → Option Invocation
  | Call.Test v cc additions talismanRC result =>
    some { v := v, cc := cc, additions := additions, talismanRC := talismanRC, result := result }
  | _ => none

/-- The call is the invocation of a detector. -/
def Call.isTest : Call → Bool
  | Call.Test _ _ _ _ _ => true
  | _ => false

/-- The argument of the call, when it is `Start`. -/
def Call.start? : Call → Option Int
  | Call.Start total => some total
  | _ => none

/-- The call is `Start`. -/
def Call.isStart : Call → Bool
  | Call.Start _ => true
  | _ => false

/-- The call is `Increment`. -/
def Call.isIncrement : Call → Bool
  | Call.Increment => true
  | _ => false

/-- A call on the progress reporter. -/
inductive ReporterCall where
  | Start (total : Int)
  | Increment
  | Finish
  deriving DecidableEq

/-- The call on the progress reporter a call stands for, when it is one. -/
def Call.reporter? : Call → Option ReporterCall
  | Call.Start total => some (ReporterCall.Start total)
  | Call.Increment => some ReporterCall.Increment
  | Call.Finish => some ReporterCall.Finish
  | _ => none

/-- The hasher a call builds, when it is one of the two hasher constructors. -/
def Call.hasher? : Call → Option SHA256Hasher
  | Call.NewGitHeadFileSHA256Hasher root => some (Talisman.NewGitHeadFileSHA256Hasher root)
  | Call.NewGitFileSHA256Hasher root => some (Talisman.NewGitFileSHA256Hasher root)
  | _ => none

/-- The calculator a call builds, when it is `NewChecksumCalculator`. -/
def Call.calculator? : Call → Option ChecksumCalculator
  | Call.NewChecksumCalculator hasher additions =>
    some (Talisman.NewChecksumCalculator hasher additions)
  | _ => none

/-- The call is `NewChecksumCalculator`. -/
def Call.isCalculator : Call → Bool
  | Call.NewChecksumCalculator _ _ => true
  | _ => false

/-- The comparator a call builds, when it is `NewChecksumCompare`. -/
def Call.compare? : Call → Option ChecksumCompare
  | Call.NewChecksumCompare calculator hasher talismanRC =>
    some (Talisman.NewChecksumCompare calculator hasher talismanRC)
  | _ => none

/-- The findings gained between each results value and the next. -/
def gains : List DetectionResults → List (List Finding)
  | r :: r' :: rs => r'.drop r.length :: gains (r' :: rs)
  | _ => []

/-- The findings each invocation of a run produced, in the order of the
invocations: what the results gained between the moment the detector received
them and the moment the next detector received them (the end of the run for the
last detector). -/
def Run.produced (run : Run) : List (List Finding) :=
  gains ((run.calls.filterMap Call.invocation?).map Invocation.result ++ [run.result])

/-- The detector only appends: the results it leaves start with the results it
was handed. -/
def Detector.Appends (d : Detector) : Prop :=
  ∀ (cc : ChecksumCompare) (additions : List Addition) (talismanRC : TalismanRC)
    (result : DetectionResults), result <+: (d.Test cc additions talismanRC result).1

/-- The detector appends findings that do not depend on the results it is
handed: it leaves those results followed by the findings it produces from empty
results. -/
def Detector.Oblivious (d : Detector) : Prop :=
  ∀ (cc : ChecksumCompare) (additions : List Addition) (talismanRC : TalismanRC)
    (result : DetectionResults),
    (d.Test cc additions talismanRC result).1 =
      result ++ (d.Test cc additions talismanRC []).1

/-- Detector independence for the chain `ds₁ ++ d :: ds₂` and the detector `d`,
comparing the run of the full chain with the run of the chain without `d` on
the same inputs: the findings each remaining detector produced are the same in
both runs; the results of the shortened chain are the initial results followed
by the findings of the full run without those `d` produced, in the same order;
and one run panics exactly when the other does. -/
def DetectorIndependence (env : Env) (hooktype : String) (ds₁ : List Detector)
    (d : Detector) (ds₂ : List Detector) (currentAdditions : List Addition)
    (talismanRC : TalismanRC) (result : DetectionResults) : Prop :=
  (Chain.Test { detectors := ds₁ ++ ds₂, hooktype := hooktype } env currentAdditions
      talismanRC result).produced =
    (Chain.Test { detectors := ds₁ ++ d :: ds₂, hooktype := hooktype } env currentAdditions
      talismanRC result).produced.eraseIdx ds₁.length ∧
  (Chain.Test { detectors := ds₁ ++ ds₂, hooktype := hooktype } env currentAdditions
      talismanRC result).result =
    result ++
      ((Chain.Test { detectors := ds₁ ++ d :: ds₂, hooktype := hooktype } env currentAdditions
        talismanRC result).produced.eraseIdx ds₁.length).flatten ∧
  (Chain.Test { detectors := ds₁ ++ ds₂, hooktype := hooktype } env currentAdditions
      talismanRC result).panicked =
    (Chain.Test { detectors := ds₁ ++ d :: ds₂, hooktype := hooktype } env currentAdditions
      talismanRC result).panicked

/-! ## Auxiliary definitions: the run written out, findings per detector -/

/-- The results after the detectors `ds` have run in order from `result`. -/
def threaded (cc : ChecksumCompare) (additions : List Addition) (talismanRC : TalismanRC)
    (ds : List Detector) (result : DetectionResults) : DetectionResults :=
  ds.foldl (fun acc d => (d.Test cc additions talismanRC acc).1) result

/-- The reporter is usable: it is the no-op reporter or holds a bar. -/
def progressBar.ready : progressBar → Bool
  | progressBar.default d => d.bar.isSome
  | progressBar.noOp _ => true

/-- The calls of the detector loop, written out. -/
def loopCalls (cc : ChecksumCompare) (additions : List Addition) (talismanRC : TalismanRC) :
    List Detector → DetectionResults → List Call
  | [], _ => []
  | v :: vs, result =>
    Call.Test v cc additions talismanRC result ::
      (List.replicate (v.Test cc additions talismanRC result).2 Call.Increment ++
        loopCalls cc additions talismanRC vs (v.Test cc additions talismanRC result).1)

/-- The hasher `Chain.Test` selects for a hook type and a working directory. -/
def selectedHasher (hooktype wd : String) : SHA256Hasher :=
  if hooktype = "pre-push" then NewGitHeadFileSHA256Hasher wd else NewGitFileSHA256Hasher wd

/-- The comparator `Chain.Test` builds. -/
def builtCompare (hooktype : String) (env : Env) (currentAdditions : List Addition)
    (talismanRC : TalismanRC) : ChecksumCompare :=
  NewChecksumCompare
    (NewChecksumCalculator (selectedHasher hooktype env.wd)
      (env.TrackedFilesAsAdditions env.wd ++ currentAdditions))
    (selectedHasher hooktype env.wd) talismanRC

/-- The total `Chain.Test` hands to `Start`. -/
def startTotal (dc : Chain) (env : Env) (currentAdditions : List Addition) : Int :=
  wrapInt env.intSize ((currentAdditions.length : Int) * (dc.detectors.length : Int))

/-- The calls `Chain.Test` makes before it dereferences the `FileInfo` of standard
output. -/
def headCalls (dc : Chain) (env : Env) (currentAdditions : List Addition)
    (talismanRC : TalismanRC) : List Call :=
  [Call.Getwd, Call.RepoLocatedAt env.wd, Call.TrackedFilesAsAdditions,
    if dc.hooktype = "pre-push" then Call.NewGitHeadFileSHA256Hasher env.wd
    else Call.NewGitFileSHA256Hasher env.wd,
    Call.NewChecksumCalculator (selectedHasher dc.hooktype env.wd)
      (env.TrackedFilesAsAdditions env.wd ++ currentAdditions),
    Call.NewChecksumCompare
      (NewChecksumCalculator (selectedHasher dc.hooktype env.wd)
        (env.TrackedFilesAsAdditions env.wd ++ currentAdditions))
      (selectedHasher dc.hooktype env.wd) talismanRC,
    Call.Printf "Number of files to scan: %d\n" (currentAdditions.length : Int),
    Call.Printf "Number of detectors: %d\n" (dc.detectors.length : Int),
    Call.StdoutStat]

/-- The calls `Chain.Test` makes once it has a reporter, written out. -/
def tailCalls (dc : Chain) (env : Env) (currentAdditions : List Addition)
    (talismanRC : TalismanRC) (result : DetectionResults) : List Call :=
  Call.Start (startTotal dc env currentAdditions) ::
    (loopCalls (builtCompare dc.hooktype env currentAdditions talismanRC) currentAdditions
      talismanRC dc.detectors result ++ [Call.Finish])

/-- The invocations of the detector loop, written out. -/
def invocationsFrom (cc : ChecksumCompare) (additions : List Addition)
    (talismanRC : TalismanRC) : List Detector → DetectionResults → List Invocation
  | [], _ => []
  | v :: vs, result =>
    { v := v, cc := cc, additions := additions, talismanRC := talismanRC, result := result } ::
      invocationsFrom cc additions talismanRC vs (v.Test cc additions talismanRC result).1

/-- The number of times the detectors `ds`, run in order from `result`, call
the callback. -/
def callbacks (cc : ChecksumCompare) (additions : List Addition) (talismanRC : TalismanRC) :
    List Detector → DetectionResults → Nat
  | [], _ => 0
  | v :: vs, result =>
    (v.Test cc additions talismanRC result).2 +
      callbacks cc additions talismanRC vs (v.Test cc additions talismanRC result).1

/-- The findings each detector of `ds` produces when they run in order from
`result`, written out. -/
def gainsOf (cc : ChecksumCompare) (additions : List Addition) (talismanRC : TalismanRC) :
    List Detector → DetectionResults → List (List Finding)
  | [], _ => []
  | v :: vs, result =>
    (v.Test cc additions talismanRC result).1.drop result.length ::
      gainsOf cc additions talismanRC vs (v.Test cc additions talismanRC result).1

/-! ## The run of `Chain.Test`, written out -/

theorem ready_Increment (bar : progressBar) (h : bar.ready = true) :
    ∃ bar', bar.Increment = some bar' ∧ bar'.ready = true := by
  cases bar with
  | default d =>
    obtain ⟨b⟩ := d
    cases b with
    | none => simp [progressBar.ready] at h
    | some b => exact ⟨_, rfl, rfl⟩
  | noOp d => exact ⟨_, rfl, rfl⟩

theorem ready_Finish (bar : progressBar) (h : bar.ready = true) :
    ∃ bar', bar.Finish = some bar' ∧ bar'.ready = true := by
  cases bar with
  | default d =>
    obtain ⟨b⟩ := d
    cases b with
    | none => simp [progressBar.ready] at h
    | some b => exact ⟨_, rfl, rfl⟩
  | noOp d => exact ⟨_, rfl, rfl⟩

theorem ready_Start (bar : progressBar) (total : Int) : (bar.Start total).ready = true := by
  cases bar <;> rfl

theorem onItemScanned_ready (n : Nat) (bar : progressBar) (h : bar.ready = true) :
    ∃ bar', onItemScanned n bar = (bar', List.replicate n Call.Increment, false) ∧
      bar'.ready = true := by
  induction n generalizing bar with
  | zero => exact ⟨bar, rfl, h⟩
  | succ n ih =>
    obtain ⟨b1, hb1, hr1⟩ := ready_Increment bar h
    obtain ⟨b2, hb2, hr2⟩ := ih b1 hr1
    refine ⟨b2, ?_, hr2⟩
    simp [onItemScanned, hb1, hb2, List.replicate_succ]

theorem rangeDetectors_ready (cc : ChecksumCompare) (additions : List Addition)
    (talismanRC : TalismanRC) (ds : List Detector) (result : DetectionResults)
    (bar : progressBar) (h : bar.ready = true) :
    ∃ bar', rangeDetectors cc additions talismanRC ds result bar =
        { result := threaded cc additions talismanRC ds result, progressBar := bar',
          calls := loopCalls cc additions talismanRC ds result, panicked := false } ∧
      bar'.ready = true := by
  induction ds generalizing result bar with
  | nil => exact ⟨bar, rfl, h⟩
  | cons v vs ih =>
    obtain ⟨b1, hb1, hr1⟩ :=
      onItemScanned_ready (v.Test cc additions talismanRC result).2 bar h
    obtain ⟨b2, hb2, hr2⟩ := ih (v.Test cc additions talismanRC result).1 b1 hr1
    refine ⟨b2, ?_, hr2⟩
    simp [rangeDetectors, hb1, hb2, loopCalls, threaded]

theorem getProgressBar_of_stat (env : Env) (mode : Nat) (h : env.stdoutStat = some mode) :
    ∃ bar, getProgressBar env = some bar := by
  unfold getProgressBar isTerminal
  rw [h]
  dsimp only
  cases hc : ((mode &&& ModeCharDevice) != 0) <;> exact ⟨_, rfl⟩

theorem getProgressBar_of_stat_error (env : Env) (h : env.stdoutStat = none) :
    getProgressBar env = none := by
  unfold getProgressBar isTerminal
  rw [h]

/-- The run when `os.Stdout.Stat()` succeeds: `Chain.Test` returns, with the
results threaded through the detectors and the calls written out. -/
theorem Test_run_of_stat (dc : Chain) (env : Env) (mode : Nat)
    (h : env.stdoutStat = some mode) (currentAdditions : List Addition)
    (talismanRC : TalismanRC) (result : DetectionResults) :
    ∃ bar, dc.Test env currentAdditions talismanRC result =
      { result := threaded (builtCompare dc.hooktype env currentAdditions talismanRC)
                    currentAdditions talismanRC dc.detectors result,
        progressBar := some bar,
        calls := headCalls dc env currentAdditions talismanRC ++
          tailCalls dc env currentAdditions talismanRC result,
        panicked := false } := by
  obtain ⟨b0, hb0⟩ := getProgressBar_of_stat env mode h
  obtain ⟨b1, hb1, hr1⟩ := rangeDetectors_ready
    (builtCompare dc.hooktype env currentAdditions talismanRC) currentAdditions talismanRC
    dc.detectors result (b0.Start (startTotal dc env currentAdditions)) (ready_Start _ _)
  obtain ⟨b2, hb2, _⟩ := ready_Finish b1 hr1
  refine ⟨b2, ?_⟩
  unfold Chain.Test
  by_cases hh : dc.hooktype = "pre-push"
  · simp only [hh, builtCompare, selectedHasher, headCalls, tailCalls, startTotal, if_true]
      at hb1 ⊢
    simp [hb0, hb1, hb2]
  · simp only [hh, builtCompare, selectedHasher, headCalls, tailCalls, startTotal, if_false]
      at hb1 ⊢
    simp [hb0, hb1, hb2]

/-- The run when `os.Stdout.Stat()` fails: `Chain.Test` panics in `getProgressBar`,
after the comparator is built and before `Start`, and leaves the results as
they were. -/
theorem Test_run_of_stat_error (dc : Chain) (env : Env) (h : env.stdoutStat = none)
    (currentAdditions : List Addition) (talismanRC : TalismanRC)
    (result : DetectionResults) :
    dc.Test env currentAdditions talismanRC result =
      { result := result, progressBar := none,
        calls := headCalls dc env currentAdditions talismanRC, panicked := true } := by
  have hb0 := getProgressBar_of_stat_error env h
  unfold Chain.Test
  by_cases hh : dc.hooktype = "pre-push"
  · simp only [hh, selectedHasher, headCalls, if_true]
    simp [hb0]
  · simp only [hh, selectedHasher, headCalls, if_false]
    simp [hb0]

/-- Either `os.Stdout.Stat()` succeeds and the run returns, or it fails and the
run panics in `getProgressBar`. -/
theorem Test_run (dc : Chain) (env : Env) (currentAdditions : List Addition)
    (talismanRC : TalismanRC) (result : DetectionResults) :
    (∃ mode bar, env.stdoutStat = some mode ∧
      dc.Test env currentAdditions talismanRC result =
        { result := threaded (builtCompare dc.hooktype env currentAdditions talismanRC)
                      currentAdditions talismanRC dc.detectors result,
          progressBar := some bar,
          calls := headCalls dc env currentAdditions talismanRC ++
            tailCalls dc env currentAdditions talismanRC result,
          panicked := false }) ∨
    (env.stdoutStat = none ∧
      dc.Test env currentAdditions talismanRC result =
        { result := result, progressBar := none,
          calls := headCalls dc env currentAdditions talismanRC, panicked := true }) := by
  cases h : env.stdoutStat with
  | none => exact Or.inr ⟨rfl, Test_run_of_stat_error dc env h _ _ _⟩
  | some mode =>
    obtain ⟨bar, hbar⟩ := Test_run_of_stat dc env mode h currentAdditions talismanRC result
    exact Or.inl ⟨mode, bar, rfl, hbar⟩

/-! ## The calls of a run, by kind -/

theorem loopCalls_invocations (cc : ChecksumCompare) (additions : List Addition)
    (talismanRC : TalismanRC) (ds : List Detector) (result : DetectionResults) :
    (loopCalls cc additions talismanRC ds result).filterMap Call.invocation? =
      invocationsFrom cc additions talismanRC ds result := by
  induction ds generalizing result with
  | nil => rfl
  | cons v vs ih =>
    have hinc : ∀ n : Nat,
        (List.replicate n Call.Increment).filterMap Call.invocation? = [] := by
      intro n
      induction n with
      | zero => rfl
      | succ n ihn => simp [List.replicate_succ, Call.invocation?]
    simp [loopCalls, invocationsFrom, Call.invocation?, List.filterMap_append, hinc, ih]

theorem loopCalls_filterMap_none {β : Type} (f : Call → Option β)
    (hT : ∀ v cc a rc r, f (Call.Test v cc a rc r) = none) (hI : f Call.Increment = none)
    (cc : ChecksumCompare) (additions : List Addition) (talismanRC : TalismanRC)
    (ds : List Detector) (result : DetectionResults) :
    (loopCalls cc additions talismanRC ds result).filterMap f = [] := by
  induction ds generalizing result with
  | nil => rfl
  | cons v vs ih =>
    have hinc : ∀ n : Nat, (List.replicate n Call.Increment).filterMap f = [] := by
      intro n
      induction n with
      | zero => rfl
      | succ n ihn => simp [List.replicate_succ, hI]
    simp [loopCalls, List.filterMap_append, hT, hinc, ih]

theorem loopCalls_reporter (cc : ChecksumCompare) (additions : List Addition)
    (talismanRC : TalismanRC) (ds : List Detector) (result : DetectionResults) :
    (loopCalls cc additions talismanRC ds result).filterMap Call.reporter? =
      List.replicate (callbacks cc additions talismanRC ds result) ReporterCall.Increment := by
  induction ds generalizing result with
  | nil => rfl
  | cons v vs ih =>
    have hinc : ∀ n : Nat, (List.replicate n Call.Increment).filterMap Call.reporter? =
        List.replicate n ReporterCall.Increment := by
      intro n
      induction n with
      | zero => rfl
      | succ n ihn => simp [List.replicate_succ, Call.reporter?, ihn]
    simp [loopCalls, callbacks, List.filterMap_append, Call.reporter?, hinc, ih]

theorem callbacks_once_per_addition (cc : ChecksumCompare) (additions : List Addition)
    (talismanRC : TalismanRC) (ds : List Detector)
    (h : ∀ d ∈ ds, ∀ (cc : ChecksumCompare) (r : DetectionResults),
      (d.Test cc additions talismanRC r).2 = additions.length)
    (result : DetectionResults) :
    callbacks cc additions talismanRC ds result = additions.length * ds.length := by
  induction ds generalizing result with
  | nil => rfl
  | cons v vs ih =>
    have hv := h v (List.mem_cons_self _ _) cc result
    have hvs := ih (fun d hd => h d (List.mem_cons_of_mem _ hd))
      (v.Test cc additions talismanRC result).1
    simp only [callbacks, hv, hvs, List.length_cons]
    ring

theorem headCalls_invocations (dc : Chain) (env : Env) (additions : List Addition)
    (talismanRC : TalismanRC) :
    (headCalls dc env additions talismanRC).filterMap Call.invocation? = [] := by
  unfold headCalls
  split <;> rfl

theorem headCalls_hasher (dc : Chain) (env : Env) (additions : List Addition)
    (talismanRC : TalismanRC) :
    (headCalls dc env additions talismanRC).filterMap Call.hasher? =
      [selectedHasher dc.hooktype env.wd] := by
  unfold headCalls selectedHasher
  split <;> rfl

theorem headCalls_calculator (dc : Chain) (env : Env) (additions : List Addition)
    (talismanRC : TalismanRC) :
    (headCalls dc env additions talismanRC).filterMap Call.calculator? =
      [NewChecksumCalculator (selectedHasher dc.hooktype env.wd)
        (env.TrackedFilesAsAdditions env.wd ++ additions)] := by
  unfold headCalls
  split <;> rfl

theorem headCalls_compare (dc : Chain) (env : Env) (additions : List Addition)
    (talismanRC : TalismanRC) :
    (headCalls dc env additions talismanRC).filterMap Call.compare? =
      [builtCompare dc.hooktype env additions talismanRC] := by
  unfold headCalls
  split <;> rfl

theorem headCalls_start (dc : Chain) (env : Env) (additions : List Addition)
    (talismanRC : TalismanRC) :
    (headCalls dc env additions talismanRC).filterMap Call.start? = [] := by
  unfold headCalls
  split <;> rfl

theorem headCalls_reporter (dc : Chain) (env : Env) (additions : List Addition)
    (talismanRC : TalismanRC) :
    (headCalls dc env additions talismanRC).filterMap Call.reporter? = [] := by
  unfold headCalls
  split <;> rfl

theorem headCalls_quiet (dc : Chain) (env : Env) (additions : List Addition)
    (talismanRC : TalismanRC) :
    ∀ c ∈ headCalls dc env additions talismanRC,
      c.isTest = false ∧ c.isIncrement = false ∧ c.isStart = false := by
  intro c hc
  unfold headCalls at hc
  simp only [List.mem_cons, List.mem_singleton, List.not_mem_nil, or_false] at hc
  rcases hc with hc | hc | hc | hc | hc | hc | hc | hc | hc
  all_goals first
    | (subst hc; exact ⟨rfl, rfl, rfl⟩)
    | (subst hc; split <;> exact ⟨rfl, rfl, rfl⟩)

theorem tailCalls_invocations (dc : Chain) (env : Env) (additions : List Addition)
    (talismanRC : TalismanRC) (result : DetectionResults) :
    (tailCalls dc env additions talismanRC result).filterMap Call.invocation? =
      invocationsFrom (builtCompare dc.hooktype env additions talismanRC) additions talismanRC
        dc.detectors result := by
  simp [tailCalls, List.filterMap_append, loopCalls_invocations, Call.invocation?]

theorem tailCalls_filterMap_none {β : Type} (f : Call → Option β)
    (hS : ∀ total, f (Call.Start total) = none)
    (hT : ∀ v cc a rc r, f (Call.Test v cc a rc r) = none) (hI : f Call.Increment = none)
    (hF : f Call.Finish = none)
    (dc : Chain) (env : Env) (additions : List Addition)
    (talismanRC : TalismanRC) (result : DetectionResults) :
    (tailCalls dc env additions talismanRC result).filterMap f = [] := by
  simp [tailCalls, List.filterMap_append, loopCalls_filterMap_none f hT hI, hS, hF]

theorem tailCalls_start (dc : Chain) (env : Env) (additions : List Addition)
    (talismanRC : TalismanRC) (result : DetectionResults) :
    (tailCalls dc env additions talismanRC result).filterMap Call.start? =
      [startTotal dc env additions] := by
  simp [tailCalls, List.filterMap_append, Call.start?, loopCalls_filterMap_none]

theorem tailCalls_reporter (dc : Chain) (env : Env) (additions : List Addition)
    (talismanRC : TalismanRC) (result : DetectionResults) :
    (tailCalls dc env additions talismanRC result).filterMap Call.reporter? =
      ReporterCall.Start (startTotal dc env additions) ::
        (List.replicate
            (callbacks (builtCompare dc.hooktype env additions talismanRC) additions talismanRC
              dc.detectors result) ReporterCall.Increment ++ [ReporterCall.Finish]) := by
  simp [tailCalls, List.filterMap_append, Call.reporter?, loopCalls_reporter]

theorem takeWhile_head_tail (p : Call → Bool) (dc : Chain) (env : Env)
    (additions : List Addition) (talismanRC : TalismanRC) (result : DetectionResults)
    (hp : ∀ c ∈ headCalls dc env additions talismanRC, p c = true)
    (hs : p (Call.Start (startTotal dc env additions)) = false) :
    (headCalls dc env additions talismanRC ++
        tailCalls dc env additions talismanRC result).takeWhile p =
      headCalls dc env additions talismanRC := by
  have hgen : ∀ (l : List Call) (x : Call) (t : List Call),
      (∀ c ∈ l, p c = true) → p x = false → (l ++ x :: t).takeWhile p = l := by
    intro l x t hl hx
    induction l with
    | nil => simp [List.takeWhile, hx]
    | cons a l ih =>
      have ha := hl a (List.mem_cons_self _ _)
      simp [List.takeWhile, ha, ih (fun c hc => hl c (List.mem_cons_of_mem _ hc))]
  exact hgen _ _ _ hp hs

theorem invocationsFrom_map_v (cc : ChecksumCompare) (additions : List Addition)
    (talismanRC : TalismanRC) (ds : List Detector) (result : DetectionResults) :
    (invocationsFrom cc additions talismanRC ds result).map Invocation.v = ds := by
  induction ds generalizing result with
  | nil => rfl
  | cons v vs ih => simp [invocationsFrom, ih]

theorem invocationsFrom_args (cc : ChecksumCompare) (additions : List Addition)
    (talismanRC : TalismanRC) (ds : List Detector) (result : DetectionResults) :
    ∀ inv ∈ invocationsFrom cc additions talismanRC ds result,
      inv.cc = cc ∧ inv.additions = additions ∧ inv.talismanRC = talismanRC := by
  induction ds generalizing result with
  | nil => intro inv h; simp [invocationsFrom] at h
  | cons v vs ih =>
    intro inv h
    simp only [invocationsFrom, List.mem_cons] at h
    rcases h with h | h
    · subst h; exact ⟨rfl, rfl, rfl⟩
    · exact ih _ inv h

theorem invocationsFrom_result (cc : ChecksumCompare) (additions : List Addition)
    (talismanRC : TalismanRC) (ds : List Detector) (result : DetectionResults) :
    ∀ (i : Nat) (inv : Invocation),
      (invocationsFrom cc additions talismanRC ds result)[i]? = some inv →
        inv.result = threaded cc additions talismanRC (ds.take i) result := by
  induction ds generalizing result with
  | nil => intro i inv h; simp [invocationsFrom] at h
  | cons v vs ih =>
    intro i inv h
    cases i with
    | zero =>
      simp [invocationsFrom] at h
      subst h
      rfl
    | succ i =>
      simp only [invocationsFrom, List.getElem?_cons_succ] at h
      have := ih _ i inv h
      simpa [threaded] using this

/-- The invocations of a run: those of the detector loop when `os.Stdout.Stat()`
succeeds, none when it fails. -/
theorem Test_invocations (dc : Chain) (env : Env) (currentAdditions : List Addition)
    (talismanRC : TalismanRC) (result : DetectionResults) :
    (dc.Test env currentAdditions talismanRC result).calls.filterMap Call.invocation? =
      match env.stdoutStat with
      | some _ => invocationsFrom (builtCompare dc.hooktype env currentAdditions talismanRC)
          currentAdditions talismanRC dc.detectors result
      | none => [] := by
  rcases Test_run dc env currentAdditions talismanRC result with
    ⟨mode, bar, hstat, hrun⟩ | ⟨hstat, hrun⟩
  · rw [hrun, hstat]
    simp [List.filterMap_append, headCalls_invocations, tailCalls_invocations]
  · rw [hrun, hstat]
    simp [headCalls_invocations]

/-! ## The range of `int` -/

theorem wrapInt_of_fits (size : IntSize) (x : Int) (h0 : 0 ≤ x)
    (h : x < 2 ^ (size.bits - 1)) : wrapInt size x = x := by
  cases size
  · simp only [wrapInt, IntSize.bits] at h ⊢
    norm_num at h ⊢
    omega
  · simp only [wrapInt, IntSize.bits] at h ⊢
    norm_num at h ⊢
    omega

theorem startTotal_of_fits (dc : Chain) (env : Env) (additions : List Addition)
    (h : (additions.length : Int) * (dc.detectors.length : Int) <
      2 ^ (env.intSize.bits - 1)) :
    startTotal dc env additions = (additions.length : Int) * (dc.detectors.length : Int) :=
  wrapInt_of_fits _ _ (by positivity) h

/-! ## Results, panics and findings of a run -/

theorem Test_result (dc : Chain) (env : Env) (currentAdditions : List Addition)
    (talismanRC : TalismanRC) (result : DetectionResults) :
    (dc.Test env currentAdditions talismanRC result).result =
      match env.stdoutStat with
      | some _ => threaded (builtCompare dc.hooktype env currentAdditions talismanRC)
          currentAdditions talismanRC dc.detectors result
      | none => result := by
  rcases Test_run dc env currentAdditions talismanRC result with
    ⟨mode, bar, hstat, hrun⟩ | ⟨hstat, hrun⟩
  · rw [hrun, hstat]
  · rw [hrun, hstat]

theorem Test_panicked (dc : Chain) (env : Env) (currentAdditions : List Addition)
    (talismanRC : TalismanRC) (result : DetectionResults) :
    (dc.Test env currentAdditions talismanRC result).panicked = env.stdoutStat.isNone := by
  rcases Test_run dc env currentAdditions talismanRC result with
    ⟨mode, bar, hstat, hrun⟩ | ⟨hstat, hrun⟩
  · rw [hrun, hstat]
    rfl
  · rw [hrun, hstat]
    rfl

theorem inputs_head (cc : ChecksumCompare) (additions : List Addition)
    (talismanRC : TalismanRC) (ds : List Detector) (result : DetectionResults) :
    ∃ rest, (invocationsFrom cc additions talismanRC ds result).map Invocation.result ++
        [threaded cc additions talismanRC ds result] = result :: rest := by
  cases ds with
  | nil => exact ⟨[], rfl⟩
  | cons v vs => exact ⟨_, rfl⟩

theorem gains_inputs (cc : ChecksumCompare) (additions : List Addition)
    (talismanRC : TalismanRC) (ds : List Detector) (result : DetectionResults) :
    gains ((invocationsFrom cc additions talismanRC ds result).map Invocation.result ++
        [threaded cc additions talismanRC ds result]) =
      gainsOf cc additions talismanRC ds result := by
  induction ds generalizing result with
  | nil => rfl
  | cons v vs ih =>
    obtain ⟨rest, hrest⟩ := inputs_head cc additions talismanRC vs
      (v.Test cc additions talismanRC result).1
    have hih := ih (v.Test cc additions talismanRC result).1
    rw [hrest] at hih
    have hstep : (invocationsFrom cc additions talismanRC (v :: vs) result).map
          Invocation.result ++ [threaded cc additions talismanRC (v :: vs) result] =
        result :: (v.Test cc additions talismanRC result).1 :: rest := by
      rw [← hrest]
      rfl
    rw [hstep]
    simp only [gains, gainsOf, hih]

/-- The findings each invocation of a run produced: those of the detector loop
when `os.Stdout.Stat()` succeeds, none when it fails. -/
theorem Test_produced (dc : Chain) (env : Env) (currentAdditions : List Addition)
    (talismanRC : TalismanRC) (result : DetectionResults) :
    (dc.Test env currentAdditions talismanRC result).produced =
      match env.stdoutStat with
      | some _ => gainsOf (builtCompare dc.hooktype env currentAdditions talismanRC)
          currentAdditions talismanRC dc.detectors result
      | none => [] := by
  unfold Run.produced
  rw [Test_invocations, Test_result]
  cases env.stdoutStat with
  | none => rfl
  | some mode => exact gains_inputs _ _ _ _ _

theorem threaded_append (cc : ChecksumCompare) (additions : List Addition)
    (talismanRC : TalismanRC) (ds₁ ds₂ : List Detector) (result : DetectionResults) :
    threaded cc additions talismanRC (ds₁ ++ ds₂) result =
      threaded cc additions talismanRC ds₂ (threaded cc additions talismanRC ds₁ result) := by
  simp [threaded, List.foldl_append]

theorem gainsOf_append (cc : ChecksumCompare) (additions : List Addition)
    (talismanRC : TalismanRC) (ds₁ ds₂ : List Detector) (result : DetectionResults) :
    gainsOf cc additions talismanRC (ds₁ ++ ds₂) result =
      gainsOf cc additions talismanRC ds₁ result ++
        gainsOf cc additions talismanRC ds₂ (threaded cc additions talismanRC ds₁ result) := by
  induction ds₁ generalizing result with
  | nil => rfl
  | cons v vs ih => simp [gainsOf, threaded, ih]

theorem gainsOf_length (cc : ChecksumCompare) (additions : List Addition)
    (talismanRC : TalismanRC) (ds : List Detector) (result : DetectionResults) :
    (gainsOf cc additions talismanRC ds result).length = ds.length := by
  induction ds generalizing result with
  | nil => rfl
  | cons v vs ih => simp [gainsOf, ih]

theorem gainsOf_oblivious (cc : ChecksumCompare) (additions : List Addition)
    (talismanRC : TalismanRC) (ds : List Detector)
    (h : ∀ e ∈ ds, e.Oblivious) (result : DetectionResults) :
    gainsOf cc additions talismanRC ds result =
      ds.map (fun e => (e.Test cc additions talismanRC []).1) := by
  induction ds generalizing result with
  | nil => rfl
  | cons v vs ih =>
    have hv := h v (List.mem_cons_self _ _) cc additions talismanRC result
    have hvs := ih (fun e he => h e (List.mem_cons_of_mem _ he))
      (v.Test cc additions talismanRC result).1
    simp only [gainsOf, List.map_cons, hvs]
    rw [hv, List.drop_left]

theorem appends_of_oblivious (d : Detector) (h : d.Oblivious) : d.Appends := by
  intro cc additions talismanRC result
  rw [h cc additions talismanRC result]
  exact List.prefix_append _ _

theorem threaded_appends (cc : ChecksumCompare) (additions : List Addition)
    (talismanRC : TalismanRC) (ds : List Detector)
    (h : ∀ e ∈ ds, e.Appends) (result : DetectionResults) :
    threaded cc additions talismanRC ds result =
      result ++ (gainsOf cc additions talismanRC ds result).flatten := by
  induction ds generalizing result with
  | nil => simp [threaded, gainsOf]
  | cons v vs ih =>
    have hv := h v (List.mem_cons_self _ _) cc additions talismanRC result
    have hvs := ih (fun e he => h e (List.mem_cons_of_mem _ he))
      (v.Test cc additions talismanRC result).1
    have hstep : threaded cc additions talismanRC (v :: vs) result =
        threaded cc additions talismanRC vs (v.Test cc additions talismanRC result).1 := rfl
    rw [hstep, hvs]
    simp only [gainsOf, List.flatten_cons, ← List.append_assoc]
    rw [List.prefix_iff_eq_append.mp hv]

theorem eraseIdx_length_append {α : Type} (l₁ : List α) (x : α) (l₂ : List α) :
    (l₁ ++ x :: l₂).eraseIdx l₁.length = l₁ ++ l₂ := by
  induction l₁ with
  | nil => rfl
  | cons a l ih => simp [List.eraseIdx, ih]

theorem gainsOf_without (cc : ChecksumCompare) (additions : List Addition)
    (talismanRC : TalismanRC) (ds₁ : List Detector) (d : Detector) (ds₂ : List Detector)
    (h₂ : ∀ e ∈ ds₂, e.Oblivious) (result : DetectionResults) :
    gainsOf cc additions talismanRC (ds₁ ++ ds₂) result =
      (gainsOf cc additions talismanRC (ds₁ ++ d :: ds₂) result).eraseIdx ds₁.length := by
  rw [gainsOf_append, gainsOf_append]
  simp only [gainsOf]
  rw [gainsOf_oblivious cc additions talismanRC ds₂ h₂,
    gainsOf_oblivious cc additions talismanRC ds₂ h₂]
  rw [← gainsOf_length cc additions talismanRC ds₁ result, eraseIdx_length_append]

/-! ## Runs in which `os.Stdout.Stat()` succeeds -/

/-- When `os.Stdout.Stat()` succeeds, `Chain.Test` returns, having invoked each
detector of the chain exactly once, in the order of the list, each with the
same additions, the one comparator built in the run and the configuration;
the i-th invocation receives the results left by the first i detectors and the
final results are the left fold of the detectors over the initial results. -/
theorem Test_invokes_each_detector_of_stat (dc : Chain) (env : Env) (mode : Nat)
    (h : env.stdoutStat = some mode) (currentAdditions : List Addition)
    (talismanRC : TalismanRC) (result : DetectionResults) :
    ∃ run cc, dc.Test env currentAdditions talismanRC result = run ∧
      run.panicked = false ∧
      run.calls.filterMap Call.compare? = [cc] ∧
      (run.calls.filterMap Call.invocation?).map Invocation.v = dc.detectors ∧
      (∀ inv ∈ run.calls.filterMap Call.invocation?,
        inv.cc = cc ∧ inv.additions = currentAdditions ∧ inv.talismanRC = talismanRC) ∧
      (∀ (i : Nat) (inv : Invocation),
        (run.calls.filterMap Call.invocation?)[i]? = some inv →
          inv.result =
            (dc.detectors.take i).foldl
              (fun acc d => (d.Test cc currentAdditions talismanRC acc).1) result) ∧
      run.result =
        dc.detectors.foldl (fun acc d => (d.Test cc currentAdditions talismanRC acc).1)
          result := by
  refine ⟨_, builtCompare dc.hooktype env currentAdditions talismanRC, rfl, ?_, ?_, ?_, ?_, ?_, ?_⟩
  · rw [Test_panicked, h]
    rfl
  · obtain ⟨bar, hrun⟩ := Test_run_of_stat dc env mode h currentAdditions talismanRC result
    rw [hrun]
    simp [List.filterMap_append, headCalls_compare, Call.compare?, tailCalls_filterMap_none]
  · rw [Test_invocations, h]
    exact invocationsFrom_map_v _ _ _ _ _
  · rw [Test_invocations, h]
    exact invocationsFrom_args _ _ _ _ _
  · rw [Test_invocations, h]
    exact invocationsFrom_result _ _ _ _ _
  · rw [Test_result, h]
    rfl

/-- When `os.Stdout.Stat()` succeeds, `Chain.Test` on `NewChain(h)` returns, having
invoked no detector, made no `Increment`, started the progress reporter with the
total 0, and left the results as they were. -/
theorem NewChain_tests_nothing_of_stat (hooktype : String) (env : Env) (mode : Nat)
    (h : env.stdoutStat = some mode) (currentAdditions : List Addition)
    (talismanRC : TalismanRC) (result : DetectionResults) :
    ∃ run, (NewChain hooktype).Test env currentAdditions talismanRC result = run ∧
      run.panicked = false ∧
      (∀ c ∈ run.calls, c.isTest = false ∧ c.isIncrement = false) ∧
      run.calls.filterMap Call.start? = [0] ∧
      run.result = result := by
  refine ⟨_, rfl, ?_, ?_, ?_, ?_⟩
  · rw [Test_panicked, h]
    rfl
  · obtain ⟨bar, hrun⟩ := Test_run_of_stat (NewChain hooktype) env mode h currentAdditions
      talismanRC result
    rw [hrun]
    intro c hc
    rcases List.mem_append.mp hc with hc | hc
    · exact ⟨(headCalls_quiet _ _ _ _ c hc).1, (headCalls_quiet _ _ _ _ c hc).2.1⟩
    · simp only [tailCalls, NewChain, loopCalls, List.nil_append, List.mem_cons,
        List.mem_singleton, List.not_mem_nil, or_false] at hc
      rcases hc with hc | hc <;> subst hc <;> exact ⟨rfl, rfl⟩
  · obtain ⟨bar, hrun⟩ := Test_run_of_stat (NewChain hooktype) env mode h currentAdditions
      talismanRC result
    rw [hrun]
    have h0 : startTotal (NewChain hooktype) env currentAdditions = 0 := by
      rw [startTotal_of_fits]
      · simp [NewChain]
      · simp only [NewChain, List.length_nil, Nat.cast_zero, mul_zero]
        positivity
    simp [List.filterMap_append, headCalls_start, tailCalls_start, h0]
  · rw [Test_result, h]
    rfl

/-- Hook types other than the exact string `pre-push` (empty, differently
cased, padded, or another hook) make `Chain.Test` build the working-tree
hasher; `pre-push` itself makes it build the committed-at-HEAD hasher; so it is
whether or not `os.Stdout.Stat()` succeeds. -/
theorem Test_hooktype_spellings :
    (∀ h ∈ ["", "Pre-Push", "PRE-PUSH", " pre-push", "pre-push ", "prepush", "pre-commit"],
      (Chain.Test { detectors := [], hooktype := h } sampleEnv [] sampleRC []).calls.filterMap
          Call.hasher? = [NewGitFileSHA256Hasher "/repo"] ∧
      (Chain.Test { detectors := [], hooktype := h } closedStdoutEnv [] sampleRC
          []).calls.filterMap Call.hasher? = [NewGitFileSHA256Hasher "/repo"]) ∧
    (Chain.Test { detectors := [], hooktype := "pre-push" } sampleEnv [] sampleRC
        []).calls.filterMap Call.hasher? = [NewGitHeadFileSHA256Hasher "/repo"] ∧
    (Chain.Test { detectors := [], hooktype := "pre-push" } closedStdoutEnv [] sampleRC
        []).calls.filterMap Call.hasher? = [NewGitHeadFileSHA256Hasher "/repo"] := by
  decide

/-! ## Claims -/

/-- C1, at an input where the code does not do what the claim says: with
standard output closed, `os.Stdout.Stat()` fails and `Chain.Test` on the chain of
the two sample detectors panics in `getProgressBar`; the comparator is built, no
call is made on the progress reporter, no detector is invoked and the results
are left empty.  With standard output a regular file the same chain on the same
additions invokes its two detectors. -/
theorem Test_closed_stdout_invokes_no_detector :
    sampleChain.detectors.length = 2 ∧
    (sampleChain.Test closedStdoutEnv sampleAdditions sampleRC []).panicked = true ∧
    ((sampleChain.Test closedStdoutEnv sampleAdditions sampleRC []).calls.filterMap
      Call.compare?).length = 1 ∧
    (sampleChain.Test closedStdoutEnv sampleAdditions sampleRC []).calls.filterMap
      Call.reporter? = [] ∧
    ((sampleChain.Test closedStdoutEnv sampleAdditions sampleRC []).calls.filterMap
      Call.invocation?).length = 0 ∧
    (sampleChain.Test closedStdoutEnv sampleAdditions sampleRC []).result = [] ∧
    (sampleChain.Test sampleEnv sampleAdditions sampleRC []).panicked = false ∧
    ((sampleChain.Test sampleEnv sampleAdditions sampleRC []).calls.filterMap
      Call.invocation?).length = 2 := by
  decide

/-- C2 as stated fails: in a 32-bit process, for 65536 additions and a chain of
32768 detectors, the argument of `Start` is -2147483648, not the product
2147483648. -/
theorem Start_total_wraps_in_32_bits :
    (longChain.Test sampleEnv32 manyAdditions sampleRC []).calls.filterMap Call.start? =
      [-2147483648] ∧
    (manyAdditions.length : Int) * (longChain.detectors.length : Int) = 2147483648 := by
  obtain ⟨bar, hrun⟩ := Test_run_of_stat longChain sampleEnv32 420 rfl manyAdditions
    sampleRC []
  have htotal : startTotal longChain sampleEnv32 manyAdditions = -2147483648 := by
    simp only [startTotal, manyAdditions, longChain, List.length_replicate]
    decide
  refine ⟨?_, ?_⟩
  · rw [hrun]
    simp [List.filterMap_append, headCalls_start, tailCalls_start, htotal]
  · simp only [manyAdditions, longChain, List.length_replicate]
    decide

/-- C2, amended: in a run in which `os.Stdout.Stat()` succeeds, `Chain.Test`
returns, having called `Start` of the progress reporter exactly once, with the
product N*M of the numbers of current additions and detectors taken in the Go
type `int` (wrapped to its range), which is N*M itself whenever N*M is below
2^(bits-1); no detector is invoked and no `Increment` is made before that call;
and the argument is the same for any other environment with the same size of
`int`, any other hook type and any other results. -/
theorem Test_starts_reporter_once_with_int_product (dc : Chain) (env : Env) (mode : Nat)
    (currentAdditions : List Addition) (talismanRC : TalismanRC)
    (result : DetectionResults) (h : env.stdoutStat = some mode) :
    (dc.Test env currentAdditions talismanRC result).panicked = false ∧
    (dc.Test env currentAdditions talismanRC result).calls.filterMap Call.start? =
      [wrapInt env.intSize
        ((currentAdditions.length : Int) * (dc.detectors.length : Int))] ∧
    ((currentAdditions.length : Int) * (dc.detectors.length : Int) <
        2 ^ (env.intSize.bits - 1) →
      (dc.Test env currentAdditions talismanRC result).calls.filterMap Call.start? =
        [(currentAdditions.length : Int) * (dc.detectors.length : Int)]) ∧
    (∀ c ∈ (dc.Test env currentAdditions talismanRC result).calls.takeWhile
        (fun c => !c.isStart), c.isTest = false ∧ c.isIncrement = false) ∧
    (∀ (env' : Env) (mode' : Nat) (hooktype' : String) (result' : DetectionResults),
      env'.stdoutStat = some mode' → env'.intSize = env.intSize →
      (Chain.Test { detectors := dc.detectors, hooktype := hooktype' } env' currentAdditions
          talismanRC result').calls.filterMap Call.start? =
        (dc.Test env currentAdditions talismanRC result).calls.filterMap Call.start?) := by
  obtain ⟨bar, hrun⟩ := Test_run_of_stat dc env mode h currentAdditions talismanRC result
  have hstart : (dc.Test env currentAdditions talismanRC result).calls.filterMap Call.start? =
      [startTotal dc env currentAdditions] := by
    rw [hrun]
    simp [List.filterMap_append, headCalls_start, tailCalls_start]
  refine ⟨?_, hstart, ?_, ?_, ?_⟩
  · rw [hrun]
  · intro hfits
    rw [hstart, startTotal_of_fits dc env currentAdditions hfits]
  · rw [hrun]
    dsimp only
    rw [takeWhile_head_tail (fun c => !c.isStart) dc env currentAdditions talismanRC result
      (fun c hc => by simp [(headCalls_quiet dc env currentAdditions talismanRC c hc).2.2])
      (by simp [Call.isStart])]
    intro c hc
    exact ⟨(headCalls_quiet _ _ _ _ c hc).1, (headCalls_quiet _ _ _ _ c hc).2.1⟩
  · intro env' mode' hooktype' result' hstat' hsize'
    obtain ⟨bar', hrun'⟩ := Test_run_of_stat { detectors := dc.detectors, hooktype := hooktype' }
      env' mode' hstat' currentAdditions talismanRC result'
    rw [hstart, hrun']
    simp [List.filterMap_append, headCalls_start, tailCalls_start, startTotal, hsize']

/-- Witness of the amended C2: the sample chain of two detectors on the three
sample additions, standard output a regular file: `Start` is called once, with 6. -/
theorem Test_starts_reporter_once_with_int_product_witness :
    sampleEnv.stdoutStat = some 420 ∧
    (sampleChain.Test sampleEnv sampleAdditions sampleRC []).panicked = false ∧
    (sampleChain.Test sampleEnv sampleAdditions sampleRC []).calls.filterMap Call.start? =
      [6] :=
  ⟨rfl,
    (Test_starts_reporter_once_with_int_product sampleChain sampleEnv 420 sampleAdditions
      sampleRC [] rfl).1,
    (Test_starts_reporter_once_with_int_product sampleChain sampleEnv 420 sampleAdditions
      sampleRC [] rfl).2.2.1 (by decide)⟩

/-- C3 as stated fails: in a 32-bit process, for 65536 additions and a chain of
32768 detectors that each call the callback once per addition, the first call
on the progress reporter is `Start(-2147483648)`, not `Start(2147483648)`. -/
theorem reporter_calls_start_wraps_in_32_bits :
    (∀ d ∈ longChain.detectors, ∀ (cc : ChecksumCompare) (r : DetectionResults),
      (d.Test cc manyAdditions sampleRC r).2 = manyAdditions.length) ∧
    ((longChain.Test sampleEnv32 manyAdditions sampleRC []).calls.filterMap
      Call.reporter?).head? = some (ReporterCall.Start (-2147483648)) ∧
    ReporterCall.Start (-2147483648) ≠
      ReporterCall.Start ((manyAdditions.length : Int) * (longChain.detectors.length : Int)) := by
  obtain ⟨bar, hrun⟩ := Test_run_of_stat longChain sampleEnv32 420 rfl manyAdditions
    sampleRC []
  have htotal : startTotal longChain sampleEnv32 manyAdditions = -2147483648 := by
    simp only [startTotal, manyAdditions, longChain, List.length_replicate]
    decide
  refine ⟨?_, ?_, ?_⟩
  · intro d hd cc r
    have hd' : d = sampleFileNameDetector := List.eq_of_mem_replicate hd
    subst hd'
    rfl
  · rw [hrun]
    simp [List.filterMap_append, headCalls_reporter, tailCalls_reporter, htotal]
  · simp only [manyAdditions, longChain, List.length_replicate]
    decide

/-- C3, amended: in a run in which `os.Stdout.Stat()` succeeds, if every detector
of the chain calls its callback exactly once per addition it is given, then
`Chain.Test` returns and the calls it made on the progress reporter are exactly
`Start` with the product N*M taken in the Go type `int` (N*M itself whenever N*M
is below 2^(bits-1)), then N*M times `Increment`, then `Finish`, which is the
last call of the run; nothing is assumed about the findings. -/
theorem Test_reporter_calls (dc : Chain) (env : Env) (mode : Nat)
    (currentAdditions : List Addition) (talismanRC : TalismanRC)
    (result : DetectionResults) (h : env.stdoutStat = some mode)
    (hcb : ∀ d ∈ dc.detectors, ∀ (cc : ChecksumCompare) (r : DetectionResults),
      (d.Test cc currentAdditions talismanRC r).2 = currentAdditions.length) :
    (dc.Test env currentAdditions talismanRC result).panicked = false ∧
    (dc.Test env currentAdditions talismanRC result).calls.filterMap Call.reporter? =
      ReporterCall.Start (wrapInt env.intSize
          ((currentAdditions.length : Int) * (dc.detectors.length : Int))) ::
        (List.replicate (currentAdditions.length * dc.detectors.length)
          ReporterCall.Increment ++ [ReporterCall.Finish]) ∧
    ((currentAdditions.length : Int) * (dc.detectors.length : Int) <
        2 ^ (env.intSize.bits - 1) →
      (dc.Test env currentAdditions talismanRC result).calls.filterMap Call.reporter? =
        ReporterCall.Start ((currentAdditions.length : Int) * (dc.detectors.length : Int)) ::
          (List.replicate (currentAdditions.length * dc.detectors.length)
            ReporterCall.Increment ++ [ReporterCall.Finish])) ∧
    (dc.Test env currentAdditions talismanRC result).calls.getLast? = some Call.Finish := by
  obtain ⟨bar, hrun⟩ := Test_run_of_stat dc env mode h currentAdditions talismanRC result
  have hcalls := callbacks_once_per_addition
    (builtCompare dc.hooktype env currentAdditions talismanRC) currentAdditions talismanRC
    dc.detectors hcb result
  have hrep : (dc.Test env currentAdditions talismanRC result).calls.filterMap
        Call.reporter? =
      ReporterCall.Start (startTotal dc env currentAdditions) ::
        (List.replicate (currentAdditions.length * dc.detectors.length)
          ReporterCall.Increment ++ [ReporterCall.Finish]) := by
    rw [hrun]
    simp [List.filterMap_append, headCalls_reporter, tailCalls_reporter, hcalls]
  refine ⟨?_, hrep, ?_, ?_⟩
  · rw [hrun]
  · intro hfits
    rw [hrep, startTotal_of_fits dc env currentAdditions hfits]
  · rw [hrun]
    have hlast : ∀ (x : Call) (l : List Call), (x :: (l ++ [Call.Finish])).getLast? =
        some Call.Finish := by
      intro x l
      rw [← List.cons_append, List.getLast?_append]
      rfl
    simp only [tailCalls, List.getLast?_append, hlast]
    rfl

/-- Witness of the amended C3: the chain of the sample file name and content
detectors on the three additions `a.txt`, `b.env`, `c.pem`, standard output a
regular file: the run makes `Start(6)`, six times `Increment` and one
`Finish`. -/
theorem Test_reporter_calls_witness :
    sampleEnv.stdoutStat = some 420 ∧
    (∀ d ∈ sampleChain.detectors, ∀ (cc : ChecksumCompare) (r : DetectionResults),
      (d.Test cc sampleAdditions sampleRC r).2 = sampleAdditions.length) ∧
    (sampleChain.Test sampleEnv sampleAdditions sampleRC []).panicked = false ∧
    (sampleChain.Test sampleEnv sampleAdditions sampleRC []).calls.filterMap Call.reporter? =
      [ReporterCall.Start 6, ReporterCall.Increment, ReporterCall.Increment,
        ReporterCall.Increment, ReporterCall.Increment, ReporterCall.Increment,
        ReporterCall.Increment, ReporterCall.Finish] ∧
    (sampleChain.Test sampleEnv sampleAdditions sampleRC []).calls.getLast? =
      some Call.Finish :=
  have hcb : ∀ d ∈ sampleChain.detectors, ∀ (cc : ChecksumCompare) (r : DetectionResults),
      (d.Test cc sampleAdditions sampleRC r).2 = sampleAdditions.length := by
    intro d hd cc r
    simp only [sampleChain, List.mem_cons, List.mem_singleton, List.not_mem_nil, or_false] at hd
    rcases hd with hd | hd <;> subst hd <;> rfl
  ⟨rfl, hcb,
    (Test_reporter_calls sampleChain sampleEnv 420 sampleAdditions sampleRC [] rfl hcb).1,
    (Test_reporter_calls sampleChain sampleEnv 420 sampleAdditions sampleRC [] rfl hcb).2.2.1
      (by decide),
    (Test_reporter_calls sampleChain sampleEnv 420 sampleAdditions sampleRC [] rfl hcb).2.2.2⟩

/-- C4: in every run of `Chain.Test`, whether it returns or panics in
`getProgressBar`, exactly one hasher is built; it is the committed-at-HEAD hasher
if and only if the hook type is exactly `"pre-push"`, and the working-tree
hasher for every other hook type; it is the hasher given to the one checksum
calculator built and to the one comparator built, and that comparator is the one
every invoked detector receives. -/
theorem Test_selects_hasher_by_hooktype (dc : Chain) (env : Env)
    (currentAdditions : List Addition) (talismanRC : TalismanRC)
    (result : DetectionResults) :
    ∃ run hasher calculator cc,
      dc.Test env currentAdditions talismanRC result = run ∧
      run.calls.filterMap Call.hasher? = [hasher] ∧
      (hasher = NewGitHeadFileSHA256Hasher env.wd ↔ dc.hooktype = "pre-push") ∧
      (hasher = NewGitFileSHA256Hasher env.wd ↔ dc.hooktype ≠ "pre-push") ∧
      run.calls.filterMap Call.calculator? = [calculator] ∧
      calculator.hasher = hasher ∧
      run.calls.filterMap Call.compare? = [cc] ∧
      cc.hasher = hasher ∧ cc.calculator = calculator ∧
      (∀ inv ∈ run.calls.filterMap Call.invocation?, inv.cc = cc) := by
  refine ⟨_, selectedHasher dc.hooktype env.wd,
    NewChecksumCalculator (selectedHasher dc.hooktype env.wd)
      (env.TrackedFilesAsAdditions env.wd ++ currentAdditions),
    builtCompare dc.hooktype env currentAdditions talismanRC, rfl, ?_, ?_, ?_, ?_, rfl, ?_,
    rfl, rfl, ?_⟩
  · rcases Test_run dc env currentAdditions talismanRC result with
      ⟨mode, bar, hstat, hrun⟩ | ⟨hstat, hrun⟩
    · rw [hrun]
      simp [List.filterMap_append, headCalls_hasher, Call.hasher?, tailCalls_filterMap_none]
    · rw [hrun]
      exact headCalls_hasher _ _ _ _
  · unfold selectedHasher
    split <;> simp_all [NewGitHeadFileSHA256Hasher, NewGitFileSHA256Hasher]
  · unfold selectedHasher
    split <;> simp_all [NewGitHeadFileSHA256Hasher, NewGitFileSHA256Hasher]
  · rcases Test_run dc env currentAdditions talismanRC result with
      ⟨mode, bar, hstat, hrun⟩ | ⟨hstat, hrun⟩
    · rw [hrun]
      simp [List.filterMap_append, headCalls_calculator, Call.calculator?,
        tailCalls_filterMap_none]
    · rw [hrun]
      exact headCalls_calculator _ _ _ _
  · rcases Test_run dc env currentAdditions talismanRC result with
      ⟨mode, bar, hstat, hrun⟩ | ⟨hstat, hrun⟩
    · rw [hrun]
      simp [List.filterMap_append, headCalls_compare, Call.compare?, tailCalls_filterMap_none]
    · rw [hrun]
      exact headCalls_compare _ _ _ _
  · rw [Test_invocations]
    intro inv hinv
    cases hstat : env.stdoutStat with
    | none => rw [hstat] at hinv; simp at hinv
    | some mode =>
      rw [hstat] at hinv
      exact (invocationsFrom_args _ _ _ _ _ inv hinv).1

/-- C5: `AddDetector` leaves the chain with the detector list `ds ++ [d]` (one
longer, the earlier detectors in their positions, `d` last, whether or not `d`
was in `ds`) and the same hook type, and returns that chain; a chain built by
`NewChain(h).AddDetector(d1).AddDetector(d2)...` has the detector list
`d1, d2, ...` and hook type `h`; in every run of `Chain.Test` on it the detectors
invoked are an initial part of `d1, d2, ...`, in that order, and they are all of
them whenever `os.Stdout.Stat()` succeeds. -/
theorem AddDetector_appends_and_returns_chain (dc : Chain) (d : Detector) :
    (dc.AddDetector d).1.detectors = dc.detectors ++ [d] ∧
    (dc.AddDetector d).1.detectors.length = dc.detectors.length + 1 ∧
    (∀ i : Nat, i < dc.detectors.length →
      (dc.AddDetector d).1.detectors[i]? = dc.detectors[i]?) ∧
    (dc.AddDetector d).1.detectors[dc.detectors.length]? = some d ∧
    (dc.AddDetector d).1.detectors.getLast? = some d ∧
    (dc.AddDetector d).1.hooktype = dc.hooktype ∧
    (dc.AddDetector d).2 = (dc.AddDetector d).1 ∧
    (∀ (h : String) (ds : List Detector),
      (ds.foldl (fun c v => (c.AddDetector v).2) (NewChain h)).detectors = ds ∧
      (ds.foldl (fun c v => (c.AddDetector v).2) (NewChain h)).hooktype = h ∧
      ∀ (env : Env) (additions : List Addition) (talismanRC : TalismanRC)
        (result : DetectionResults),
        (((ds.foldl (fun c v => (c.AddDetector v).2) (NewChain h)).Test env additions
            talismanRC result).calls.filterMap Call.invocation?).map Invocation.v <+: ds ∧
        (∀ mode : Nat, env.stdoutStat = some mode →
          (((ds.foldl (fun c v => (c.AddDetector v).2) (NewChain h)).Test env additions
            talismanRC result).calls.filterMap Call.invocation?).map Invocation.v = ds)) := by
  have hfold : ∀ (ds : List Detector) (c : Chain),
      (ds.foldl (fun c v => (c.AddDetector v).2) c).detectors = c.detectors ++ ds ∧
      (ds.foldl (fun c v => (c.AddDetector v).2) c).hooktype = c.hooktype := by
    intro ds
    induction ds with
    | nil => intro c; simp
    | cons v vs ih =>
      intro c
      have := ih (c.AddDetector v).2
      simpa [Chain.AddDetector] using this
  refine ⟨rfl, by simp [Chain.AddDetector], ?_, by simp [Chain.AddDetector],
    by simp [Chain.AddDetector], rfl, rfl, ?_⟩
  · intro i hi
    simp [Chain.AddDetector, List.getElem?_append_left hi]
  · intro h ds
    have hds := hfold ds (NewChain h)
    simp only [NewChain, List.nil_append] at hds
    refine ⟨hds.1, hds.2, ?_⟩
    intro env additions talismanRC result
    rw [Test_invocations]
    cases hstat : env.stdoutStat with
    | none =>
      refine ⟨?_, ?_⟩
      · simp
      · intro mode hmode
        cases hmode
    | some mode =>
      have hall : (invocationsFrom
          (builtCompare (ds.foldl (fun c v => (c.AddDetector v).2) (NewChain h)).hooktype env
            additions talismanRC) additions talismanRC
          (ds.foldl (fun c v => (c.AddDetector v).2) (NewChain h)).detectors result).map
            Invocation.v = ds := by
        rw [invocationsFrom_map_v]
        exact hds.1
      refine ⟨?_, ?_⟩
      · simp only [hall]
        exact List.prefix_refl ds
      · intro _ _
        exact hall

/-- C6: `DefaultChain(config, h)` is the chain bound to `h` whose detector list
is, in this order, the file name detector built from the threshold of the
configuration, the file content detector built from the configuration and the
pattern detector built from its custom patterns: three detectors; it is the
chain obtained from `NewChain(h)` by those three `AddDetector` calls. -/
theorem DefaultChain_has_three_detectors (lib : Builtin) (tRC : TalismanRC)
    (hooktype : String) :
    (DefaultChain lib tRC hooktype).hooktype = hooktype ∧
    (DefaultChain lib tRC hooktype).detectors =
      [lib.DefaultFileNameDetector tRC.Threshold, lib.NewFileContentDetector tRC,
        lib.NewPatternDetector tRC.CustomPatterns] ∧
    (DefaultChain lib tRC hooktype).detectors.length = 3 ∧
    DefaultChain lib tRC hooktype =
      ((((NewChain hooktype).AddDetector (lib.DefaultFileNameDetector tRC.Threshold)).2.AddDetector
        (lib.NewFileContentDetector tRC)).2.AddDetector
          (lib.NewPatternDetector tRC.CustomPatterns)).2 :=
  ⟨rfl, rfl, rfl, rfl⟩

/-- C7, at an input where the code does not do what the claim says: with
standard output closed, `os.Stdout.Stat()` fails and `Chain.Test` on
`NewChain("pre-commit")` panics in `getProgressBar` before `Start` is called: no
call at all is made on the progress reporter.  With standard output a regular
file the same run returns and starts the reporter with 0. -/
theorem NewChain_Test_closed_stdout_never_starts :
    (NewChain "pre-commit").detectors.length = 0 ∧
    ((NewChain "pre-commit").Test closedStdoutEnv sampleAdditions sampleRC []).panicked = true ∧
    ((NewChain "pre-commit").Test closedStdoutEnv sampleAdditions sampleRC []).calls.filterMap
      Call.start? = [] ∧
    ((NewChain "pre-commit").Test closedStdoutEnv sampleAdditions sampleRC []).calls.filterMap
      Call.reporter? = [] ∧
    ((NewChain "pre-commit").Test closedStdoutEnv sampleAdditions sampleRC []).result = [] ∧
    ((NewChain "pre-commit").Test sampleEnv sampleAdditions sampleRC []).panicked = false ∧
    ((NewChain "pre-commit").Test sampleEnv sampleAdditions sampleRC []).calls.filterMap
      Call.start? = [0] := by
  decide

/-- C8: take two runs of `Chain.Test` that differ only in standard output, one in
which `getProgressBar` selects the interactive reporter and one in which it
selects the no-op reporter.  Both runs return, with the same detection results
and the same calls; the first standard output has the character device bit in
its mode and the second has not; and `Start`, `Increment` and `Finish` of the
no-op reporter leave it as it was. -/
theorem results_independent_of_reporter (dc : Chain) (env : Env)
    (stat₁ stat₂ : Option Nat) (d₁ : defaultProgressBar) (d₂ : noOpProgressBar)
    (currentAdditions : List Addition) (talismanRC : TalismanRC)
    (result : DetectionResults)
    (h₁ : getProgressBar { env with stdoutStat := stat₁ } = some (progressBar.default d₁))
    (h₂ : getProgressBar { env with stdoutStat := stat₂ } = some (progressBar.noOp d₂)) :
    (dc.Test { env with stdoutStat := stat₁ } currentAdditions talismanRC result).panicked =
      false ∧
    (dc.Test { env with stdoutStat := stat₂ } currentAdditions talismanRC result).panicked =
      false ∧
    (dc.Test { env with stdoutStat := stat₁ } currentAdditions talismanRC result).result =
      (dc.Test { env with stdoutStat := stat₂ } currentAdditions talismanRC result).result ∧
    (dc.Test { env with stdoutStat := stat₁ } currentAdditions talismanRC result).calls =
      (dc.Test { env with stdoutStat := stat₂ } currentAdditions talismanRC result).calls ∧
    (∃ mode₁, stat₁ = some mode₁ ∧ mode₁ &&& ModeCharDevice ≠ 0) ∧
    (∃ mode₂, stat₂ = some mode₂ ∧ mode₂ &&& ModeCharDevice = 0) ∧
    (∀ (d : noOpProgressBar) (total : Int),
      d.Start total = d ∧ d.Increment = d ∧ d.Finish = d ∧
      (progressBar.noOp d).Start total = progressBar.noOp d ∧
      (progressBar.noOp d).Increment = some (progressBar.noOp d) ∧
      (progressBar.noOp d).Finish = some (progressBar.noOp d)) := by
  have hm₁ : ∃ mode₁, stat₁ = some mode₁ ∧ mode₁ &&& ModeCharDevice ≠ 0 := by
    cases stat₁ with
    | none => simp [getProgressBar, isTerminal] at h₁
    | some m =>
      refine ⟨m, rfl, ?_⟩
      intro hz
      simp [getProgressBar, isTerminal, hz] at h₁
  have hm₂ : ∃ mode₂, stat₂ = some mode₂ ∧ mode₂ &&& ModeCharDevice = 0 := by
    cases stat₂ with
    | none => simp [getProgressBar, isTerminal] at h₂
    | some m =>
      refine ⟨m, rfl, ?_⟩
      by_contra hz
      have hb : (m &&& ModeCharDevice != 0) = true := by simpa using hz
      simp only [getProgressBar, isTerminal, hb] at h₂
      cases h₂
  obtain ⟨m₁, hs₁, hb₁⟩ := hm₁
  obtain ⟨m₂, hs₂, hb₂⟩ := hm₂
  obtain ⟨bar₁, hrun₁⟩ := Test_run_of_stat dc { env with stdoutStat := stat₁ } m₁ hs₁
    currentAdditions talismanRC result
  obtain ⟨bar₂, hrun₂⟩ := Test_run_of_stat dc { env with stdoutStat := stat₂ } m₂ hs₂
    currentAdditions talismanRC result
  refine ⟨?_, ?_, ?_, ?_, ⟨m₁, hs₁, hb₁⟩, ⟨m₂, hs₂, hb₂⟩, ?_⟩
  · rw [hrun₁]
  · rw [hrun₂]
  · rw [hrun₁, hrun₂]
    rfl
  · rw [hrun₁, hrun₂]
    rfl
  · intro d total
    exact ⟨rfl, rfl, rfl, rfl, rfl, rfl⟩

/-- Witness of C8: standard output a terminal (a character device) against
standard output a regular file, for the sample chain on the sample additions. -/
theorem results_independent_of_reporter_witness :
    getProgressBar { sampleEnv with stdoutStat := some terminalMode } =
      some (progressBar.default { bar := none }) ∧
    getProgressBar { sampleEnv with stdoutStat := some 420 } = some (progressBar.noOp {}) ∧
    (sampleChain.Test { sampleEnv with stdoutStat := some terminalMode } sampleAdditions
      sampleRC []).panicked = false ∧
    (sampleChain.Test { sampleEnv with stdoutStat := some 420 } sampleAdditions
      sampleRC []).panicked = false ∧
    (sampleChain.Test { sampleEnv with stdoutStat := some terminalMode } sampleAdditions
        sampleRC []).result =
      (sampleChain.Test { sampleEnv with stdoutStat := some 420 } sampleAdditions
        sampleRC []).result :=
  ⟨rfl, rfl,
    (results_independent_of_reporter sampleChain sampleEnv (some terminalMode) (some 420)
      { bar := none } {} sampleAdditions sampleRC [] rfl rfl).1,
    (results_independent_of_reporter sampleChain sampleEnv (some terminalMode) (some 420)
      { bar := none } {} sampleAdditions sampleRC [] rfl rfl).2.1,
    (results_independent_of_reporter sampleChain sampleEnv (some terminalMode) (some 420)
      { bar := none } {} sampleAdditions sampleRC [] rfl rfl).2.2.1⟩

/-- C9 as stated fails: in the chain of the sample file name detector followed
by the sample summary detector, on the additions `a.txt`, `b.env`, `c.pem` and
empty initial results, removing the file name detector changes what the
summary detector produces (nothing in the full chain, one finding alone). -/
theorem detector_independence_fails :
    ¬ DetectorIndependence sampleEnv "pre-commit" [] sampleFileNameDetector
        [sampleSummaryDetector] sampleAdditions sampleRC [] := by
  unfold DetectorIndependence
  decide

/-- C9, amended: if every detector before `d` only appends findings, and every
detector after `d` appends findings that do not depend on the results it is
handed, then removing `d` from the chain leaves the findings each remaining
detector produces unchanged, and the results of the shortened chain are the
initial results followed by the findings of the full run without those `d`
produced, in the same order. -/
theorem detector_independence_of_oblivious (env : Env) (hooktype : String)
    (ds₁ : List Detector) (d : Detector) (ds₂ : List Detector)
    (currentAdditions : List Addition) (talismanRC : TalismanRC) (result : DetectionResults)
    (h₁ : ∀ e ∈ ds₁, e.Appends) (h₂ : ∀ e ∈ ds₂, e.Oblivious) :
    DetectorIndependence env hooktype ds₁ d ds₂ currentAdditions talismanRC result := by
  have happ : ∀ e ∈ ds₁ ++ ds₂, e.Appends := by
    intro e he
    rcases List.mem_append.mp he with he | he
    · exact h₁ e he
    · exact appends_of_oblivious e (h₂ e he)
  unfold DetectorIndependence
  rw [Test_produced, Test_produced, Test_result, Test_panicked, Test_panicked]
  cases env.stdoutStat with
  | none => exact ⟨rfl, by simp, rfl⟩
  | some mode =>
    refine ⟨?_, ?_, rfl⟩
    · exact gainsOf_without _ _ _ _ _ _ h₂ _
    · show threaded _ currentAdditions talismanRC (ds₁ ++ ds₂) result = _
      rw [threaded_appends _ _ _ _ happ, gainsOf_without _ _ _ ds₁ d ds₂ h₂]

/-- Witness of the amended C9: the sample summary detector only appends, the
sample content detector appends findings that do not depend on the results,
and the file name detector between them is removed: it produced two of the four
findings of the full run, and the shortened run has the other two. -/
theorem detector_independence_of_oblivious_witness :
    (∀ e ∈ [sampleSummaryDetector], e.Appends) ∧
    (∀ e ∈ [sampleFileContentDetector], e.Oblivious) ∧
    DetectorIndependence sampleEnv "pre-commit" [sampleSummaryDetector]
      sampleFileNameDetector [sampleFileContentDetector] sampleAdditions sampleRC [] ∧
    (Chain.Test
        { detectors :=
            [sampleSummaryDetector] ++ sampleFileNameDetector :: [sampleFileContentDetector],
          hooktype := "pre-commit" }
        sampleEnv sampleAdditions sampleRC []).produced.map List.length = [1, 2, 1] ∧
    (Chain.Test
        { detectors := [sampleSummaryDetector] ++ [sampleFileContentDetector],
          hooktype := "pre-commit" }
        sampleEnv sampleAdditions sampleRC []).produced.map List.length = [1, 1] :=
  have h₁ : ∀ e ∈ [sampleSummaryDetector], e.Appends := by
    intro e he
    rw [List.mem_singleton] at he
    subst he
    intro cc additions talismanRC result
    exact (List.prefix_append _ _).trans (List.prefix_append _ _)
  have h₂ : ∀ e ∈ [sampleFileContentDetector], e.Oblivious := by
    intro e he
    rw [List.mem_singleton] at he
    subst he
    intro cc additions talismanRC result
    simp [sampleFileContentDetector]
  ⟨h₁, h₂, detector_independence_of_oblivious sampleEnv "pre-commit"
    [sampleSummaryDetector] sampleFileNameDetector [sampleFileContentDetector]
    sampleAdditions sampleRC [] h₁ h₂, by decide, by decide⟩

/-- C10: in every run of `Chain.Test`, whether it returns or panics in
`getProgressBar`, exactly one checksum calculator is built; the additions it is
given are the tracked files followed by `currentAdditions`; no detector is
invoked before it is built; every invoked detector receives a comparator bound
to that calculator; and every addition a detector is given and every tracked
file is among the additions of the calculator. -/
theorem Test_calculator_over_tracked_and_current (dc : Chain) (env : Env)
    (currentAdditions : List Addition) (talismanRC : TalismanRC)
    (result : DetectionResults) :
    ∃ run calculator,
      dc.Test env currentAdditions talismanRC result = run ∧
      run.calls.filterMap Call.calculator? = [calculator] ∧
      calculator.additions = env.TrackedFilesAsAdditions env.wd ++ currentAdditions ∧
      (∀ c ∈ run.calls.takeWhile (fun c => !c.isCalculator), c.isTest = false) ∧
      (∀ inv ∈ run.calls.filterMap Call.invocation?,
        inv.cc.calculator = calculator ∧ ∀ a ∈ inv.additions, a ∈ calculator.additions) ∧
      (∀ a ∈ currentAdditions, a ∈ calculator.additions) ∧
      (∀ a ∈ env.TrackedFilesAsAdditions env.wd, a ∈ calculator.additions) := by
  refine ⟨_, NewChecksumCalculator (selectedHasher dc.hooktype env.wd)
      (env.TrackedFilesAsAdditions env.wd ++ currentAdditions), rfl, ?_, rfl, ?_, ?_, ?_, ?_⟩
  · rcases Test_run dc env currentAdditions talismanRC result with
      ⟨mode, bar, hstat, hrun⟩ | ⟨hstat, hrun⟩
    · rw [hrun]
      simp [List.filterMap_append, headCalls_calculator, Call.calculator?,
        tailCalls_filterMap_none]
    · rw [hrun]
      exact headCalls_calculator _ _ _ _
  · rcases Test_run dc env currentAdditions talismanRC result with
      ⟨mode, bar, hstat, hrun⟩ | ⟨hstat, hrun⟩
    · rw [hrun]
      by_cases hh : dc.hooktype = "pre-push" <;>
        simp [headCalls, hh, Call.isCalculator, Call.isTest, List.takeWhile]
    · rw [hrun]
      by_cases hh : dc.hooktype = "pre-push" <;>
        simp [headCalls, hh, Call.isCalculator, Call.isTest, List.takeWhile]
  · rw [Test_invocations]
    intro inv hinv
    cases hstat : env.stdoutStat with
    | none => rw [hstat] at hinv; simp at hinv
    | some mode =>
      rw [hstat] at hinv
      obtain ⟨hcc, hadd, _⟩ := invocationsFrom_args _ _ _ _ _ inv hinv
      rw [hcc, hadd]
      refine ⟨rfl, ?_⟩
      intro a ha
      simp [NewChecksumCalculator, ha]
  · intro a ha
    simp [NewChecksumCalculator, ha]
  · intro a ha
    simp [NewChecksumCalculator, ha]

end Talisman
